import Mathlib

/-!
Verification model of `packages/qwik/src/core/object/store.ts`, the
resumability engine of the Qwik runtime: snapshot serialization
(`snapshotState`) and revival (`resumeContainer`, `reviveValues`,
`getObjectImpl`), together with the codec helpers (`intToStr`, `strToInt`,
`escapeText`, `unescapeText`).

JavaScript machine details are embedded as follows: JS strings are Lean
`String`s (operated on through their `List Char` data), JS numbers used by
the id codec are `Nat`, JS `null`/`undefined` results are `Option`s, and
reference identity of heap objects is an explicit `Nat` reference into an
environment heap.  Collaborator modules that are not part of the analyzed
file (`q-object`, `qrl`, `assert`, DOM primitives) appear as parameters of
an `Env`/input structure, following what the specification says about them.
-/

set_option maxHeartbeats 1000000

namespace QwikStore

/-! ### Codec constants (store.ts lines 34-36, markers)

`UNDEFINED_PREFIX`, `QRL_PREFIX`, `DOCUMENT_PREFIX` from the source are the
three sentinel strings; Lean names end in `MARK` instead of the source's
suffix for lexical reasons only.  `ELEMENT_ID_MARK` models the collaborator
constant `ELEMENT_ID_PREFIX` (value `"#"`), the fixed textual prefix of
element ids described by the spec. -/

def UNDEF_MARK : String := "\x10"

def QRL_MARK : String := "\x11"

def DOCUMENT_MARK : String := "\x12"

def ELEMENT_ID_MARK : String := "#"

/-! ### Base-36 id codec (store.ts lines 705-711)

`intToStr = (nu) => nu.toString(36)` and `strToInt = (nu) => parseInt(nu, 36)`.
`Number.prototype.toString(36)` prints lowercase base-36 digits, most
significant first; `parseInt(s, 36)` consumes the longest prefix of base-36
digits (accepting both cases) and ignores the rest, which is how ids with
the `"!"` proxy suffix are parsed by `getObjectImpl`.  The recursion is
written with an explicit fuel argument (`n` itself bounds the number of
divisions) so that the function reduces definitionally. -/

def digit36 (d : Nat) : Char :=
  if d < 10 then Char.ofNat (48 + d) else Char.ofNat (87 + d)

def isDigit36 (c : Char) : Bool :=
  (48 ≤ c.toNat && c.toNat ≤ 57) || (97 ≤ c.toNat && c.toNat ≤ 122) ||
    (65 ≤ c.toNat && c.toNat ≤ 90)

def val36 (c : Char) : Nat :=
  if c.toNat ≤ 57 then c.toNat - 48
  else if c.toNat ≤ 90 then c.toNat - 55
  else c.toNat - 87

def toB36Aux : Nat → Nat → List Char
  | 0, _ => []
  | fuel + 1, n =>
    if n < 36 then [digit36 n]
    else toB36Aux fuel (n / 36) ++ [digit36 (n % 36)]

def intToStr (n : Nat) : String := String.mk (toB36Aux (n + 1) n)

def parse36 (l : List Char) : Nat := l.foldl (fun a c => a * 36 + val36 c) 0

def strToInt (s : String) : Nat := parse36 (s.data.takeWhile isDigit36)


/-! ### Script-tag escaping (store.ts lines 622-628)

`escapeText` is `str.replace(/<(\/?script)/g, '\\x3C$1')` and `unescapeText`
is `str.replace(/\\x3C(\/?script)/g, '<$1')`.  Both regexes are global,
case-sensitive left-to-right scans; at a given position the pattern matches
`</script` when the optional `/` is present and `<script` otherwise, and the
scan resumes after the replacement.  The list functions below implement that
scan character by character. -/

def escList : List Char → List Char
  | '<' :: '/' :: 's' :: 'c' :: 'r' :: 'i' :: 'p' :: 't' :: rest =>
    '\\' :: 'x' :: '3' :: 'C' :: '/' :: 's' :: 'c' :: 'r' :: 'i' :: 'p' :: 't' :: escList rest
  | '<' :: 's' :: 'c' :: 'r' :: 'i' :: 'p' :: 't' :: rest =>
    '\\' :: 'x' :: '3' :: 'C' :: 's' :: 'c' :: 'r' :: 'i' :: 'p' :: 't' :: escList rest
  | c :: rest => c :: escList rest
  | [] => []

/-- Scan of `unescapeText`: at each position, replace `\x3C/script` (the
variant with the optional `/` is preferred by the regex engine) or
`\x3Cscript` and resume after the replacement, else move one character.
Written with prefix tests and `List.drop` because an 11-deep character
pattern defeats the equation generator; the recursion is well-founded on the
length of the remaining input. -/
def unescList (l : List Char) : List Char :=
  if h : (['\\', 'x', '3', 'C', '/', 's', 'c', 'r', 'i', 'p', 't']).isPrefixOf l then
    '<' :: '/' :: 's' :: 'c' :: 'r' :: 'i' :: 'p' :: 't' :: unescList (l.drop 11)
  else if h2 : (['\\', 'x', '3', 'C', 's', 'c', 'r', 'i', 'p', 't']).isPrefixOf l then
    '<' :: 's' :: 'c' :: 'r' :: 'i' :: 'p' :: 't' :: unescList (l.drop 10)
  else
    match l with
    | [] => []
    | c :: rest => c :: unescList rest
termination_by l.length
decreasing_by
· have hp := List.isPrefixOf_iff_prefix.mp h
  have hlen := hp.length_le
  simp at hlen ⊢
  omega
· have hp := List.isPrefixOf_iff_prefix.mp h2
  have hlen := hp.length_le
  simp at hlen ⊢
  omega
· simp

def escapeText (s : String) : String := String.mk (escList s.data)

def unescapeText (s : String) : String := String.mk (unescList s.data)

/-- Occurrence test for the two already-escaped patterns `\x3Cscript` and
`\x3C/script` anywhere in a character list: exactly the strings on which
`unescapeText` is not a left inverse of `escapeText`. -/
def hasEscapedPat : List Char → Bool
  | [] => false
  | c :: rest =>
    (['\\', 'x', '3', 'C', 's', 'c', 'r', 'i', 'p', 't'].isPrefixOf (c :: rest)) ||
    (['\\', 'x', '3', 'C', '/', 's', 'c', 'r', 'i', 'p', 't'].isPrefixOf (c :: rest)) ||
    hasEscapedPat rest




/-! ### Runtime values

A JS value as seen by the snapshot writer.  Reference identity of mutable
objects and DOM nodes is explicit: `vobj r` / `vnode r` are references into
the environment below, and Lean equality of `JVal` is JS reference identity
(`Map`/`Set` key identity, `===` for objects).  `vdoc` is the container's
document. -/

inductive JVal where
  | vundef
  | vnull
  | vbool (b : Bool)
  | vnum (n : Int)
  | vstr (s : String)
  | vobj (ref : Nat)
  | vnode (ref : Nat)
  | vdoc
deriving DecidableEq

/-- Shape of an ordinary heap object: a plain record (`Object.entries`
order fixed by the field list), an array, or a QRL (lazy-closure
descriptor, carrying the string `stringifyQRL` produces for it — the
closure subsystem is a collaborator, so its output is opaque data here). -/
inductive HeapObj where
  | plain (fields : List (String × JVal))
  | arr (elems : List JVal)
  | qrl (serialized : String)
deriving DecidableEq

/-- One writer-side log entry (`logError` / `logWarn` from `util/log`). -/
inductive Log where
  | warn (msg : String)
  | error (msg : String)
deriving DecidableEq

/-- The ambient state `snapshotState` reads: the heap, the reactive-proxy
registry of `q-object` (a collaborator module: `proxyTarget` is the
`QOjectTargetSymbol` slot of a proxy object, `proxyOf` is `proxyMap.get`
keyed by raw target, `subsOf` is the `QOjectSubsSymbol` subscription map of
a proxy, a `Map` from subscriber value to `null` or a `Set` of property
names), DOM node data, and the `shouldSerialize` collaborator predicate.
`elemIdAlloc` abstracts the run's `elementToIndex` allocation: within one
snapshot `getElementID` memoizes, so it is a function of the element; the
concrete numbers depend on call order, which no claim depends on. -/
structure Env where
  heap : Nat → HeapObj
  proxyTarget : Nat → Option Nat
  proxyOf : JVal → Option Nat
  subsOf : Nat → List (JVal × Option (List String))
  nodeType : Nat → Nat
  nodeConnected : Nat → Bool
  elemIdAlloc : Nat → Nat
  shouldSerialize : JVal → Bool

/-- JS `obj !== null && typeof obj === 'object'`. -/
def isObjectType : JVal → Bool
  | .vobj _ => true
  | .vnode _ => true
  | .vdoc => true
  | _ => false

/-- Collaborator `isNode` from `util/element` (truthy `value.nodeType`);
a document has `nodeType` 9. -/
def isNode : JVal → Bool
  | .vnode _ => true
  | .vdoc => true
  | _ => false

def nodeTypeOf (env : Env) : JVal → Nat
  | .vnode r => env.nodeType r
  | .vdoc => 9
  | _ => 0

/-- The `obj[QOjectTargetSymbol]` read: `some` target reference when `obj`
is a reactive proxy, else JS `undefined`. -/
def jsTarget (env : Env) : JVal → Option Nat
  | .vobj r => env.proxyTarget r
  | _ => none

/-- `normalizeObj` (store.ts lines 539-551): document sentinel first, then
the undefined sentinel for `undefined` or values `shouldSerialize` rejects,
then proxy unwrapping (`obj[QOjectTargetSymbol] ?? obj`) for object values,
else the value itself. -/
def normalizeObj (env : Env) (obj : JVal) : JVal :=
  if obj = .vdoc then .vstr DOCUMENT_MARK
  else if obj = .vundef || !env.shouldSerialize obj then .vstr UNDEF_MARK
  else
    match obj with
    | .vobj r =>
      match env.proxyTarget r with
      | some t => .vobj t
      | none => .vobj r
    | x => x

/-- `hasSubscriptions` (store.ts lines 187-193): the proxy registered for
`a` exists and its subscription map is non-empty. -/
def hasSubscriptions (env : Env) (a : JVal) : Bool :=
  match env.proxyOf a with
  | some p => decide (0 < (env.subsOf p).length)
  | none => false

/-- The comparator of `objs.sort` (store.ts lines 195-199) induces the key
`0` for subscribed values and `1` for the rest.  `Array.prototype.sort` is
required to be stable (ES2019), and with a two-valued key every stable sort
produces the same list: the subscribed values in their original order,
followed by the others in their original order.  The model is that unique
stable-sort result. -/
def sortedObjs (env : Env) (collected : List JVal) : List JVal :=
  collected.filter (fun a => hasSubscriptions env a) ++
    collected.filter (fun a => !hasSubscriptions env a)

/-- The `objToId` map (store.ts lines 201-206): every entry of the sorted
`objs` list is assigned its index.  `Map.set` lets a later entry win, hence
the recursion prefers the tail; on the duplicate-free list produced by the
collector's `Set` both conventions agree. -/
def objToId : List JVal → JVal → Option Nat
  | [], _ => none
  | a :: rest, v =>
    match objToId rest v with
    | some i => some (i + 1)
    | none => if a = v then some 0 else none

/-- `getElementID` (store.ts lines 208-221): a connected element receives
the prefixed base-36 id recorded in its id attribute, a disconnected one
gets `null`.  The memoized `elementToIndex` counter is abstracted by
`elemIdAlloc` (see `Env`). -/
def getElementID (env : Env) (r : Nat) : Option String :=
  if env.nodeConnected r then some (ELEMENT_ID_MARK ++ intToStr (env.elemIdAlloc r)) else none

/-- `getObjId` (store.ts lines 223-246).  For object-typed values: look up
the normalized form of `target ?? obj` in `objToId`, appending `"!"` when
the value itself is a proxy; an unindexed plain node yields its element id
when it is an element and an error log plus `null` otherwise.  Non-object
values are looked up directly, with no proxy suffix.  The second component
collects the `logError` output. -/
def getObjId (env : Env) (oid : JVal → Option Nat) (obj : JVal) : Option String × List Log :=
  if isObjectType obj then
    let target := jsTarget env obj
    let lookup : JVal := match target with | some t => .vobj t | none => obj
    match oid (normalizeObj env lookup) with
    | some id => (some (intToStr id ++ (if target.isSome then "!" else "")), [])
    | none =>
      if target.isNone && isNode obj then
        if nodeTypeOf env obj == 1 then
          (match obj with | .vnode r => getElementID env r | _ => none, [])
        else (none, [.error "Can not serialize a HTML Node that is not an Element"])
      else (none, [])
  else
    ((oid (normalizeObj env obj)).map intToStr, [])

/-- The id component of `getObjId`; `mustGetObjId` is this value behind a
non-null assertion. -/
def getObjId1 (env : Env) (oid : JVal → Option Nat) (obj : JVal) : Option String :=
  (getObjId env oid obj).1

/-! ### Serialized subscription maps (store.ts lines 254-272) -/

/-- A value of a serialized subscription entry: `null` for a
whole-value subscription, an array of property names, or the JS
`undefined` placed when the subscriber had no id. -/
inductive SubVal where
  | snull
  | sarr (props : List String)
  | sundef
deriving DecidableEq

/-- One `Object.fromEntries` update step: later pairs overwrite earlier
pairs with the same key, order of first appearance is kept. -/
def setEntry : List (String × SubVal) → String → SubVal → List (String × SubVal)
  | [], k, v => [(k, v)]
  | (k0, v0) :: rest, k, v =>
    if k0 = k then (k0, v) :: rest else (k0, v0) :: setEntry rest k v

def fromEntries (l : List (String × SubVal)) : List (String × SubVal) :=
  l.foldl (fun acc kv => setEntry acc kv.1 kv.2) []

/-- Property read on a serialized subscription object. -/
def lookupEntry : List (String × SubVal) → String → Option SubVal
  | [], _ => none
  | (k0, v0) :: rest, k => if k0 = k then some v0 else lookupEntry rest k

/-- The body of the `subs` construction for one value of `objs` (store.ts
lines 255-271): `some` serialized map when the value has a registered proxy
with a non-empty subscription map, else JS `null` (`none`).  A subscriber
whose `getObjId` is `null` becomes the pair `[undefined, undefined]`, which
`Object.fromEntries` coerces to the property key `"undefined"`. -/
def subsEntryFor (env : Env) (oid : JVal → Option Nat) (obj : JVal) :
    Option (List (String × SubVal)) × List Log :=
  match env.proxyOf obj with
  | some p =>
    let sm := env.subsOf p
    if 0 < sm.length then
      let mapped := sm.map (fun su =>
        match getObjId env oid su.1 with
        | (some id, lg) =>
          ((id, match su.2 with | some props => SubVal.sarr props | none => SubVal.snull), lg)
        | (none, lg) => (("undefined", SubVal.sundef), lg))
      (some (fromEntries (mapped.map Prod.fst)), (mapped.map Prod.snd).flatten)
    else (none, [])
  | none => (none, [])

/-- `subs` (store.ts lines 254-272): map every sorted value through
`subsEntryFor`, then `.filter((a) => !!a)` drops the `null` entries, so the
serialized array keeps only the `some`s — entries for trailing unsubscribed
values are not `null` but missing. -/
def buildSubs (env : Env) (oid : JVal → Option Nat) (objs : List JVal) :
    List (Option (List (String × SubVal))) × List Log :=
  let mapped := objs.map (subsEntryFor env oid)
  ((mapped.map Prod.fst).filter Option.isSome, (mapped.map Prod.snd).flatten)

/-! ### Converted objects (store.ts lines 274-297) -/

/-- A serialized `objs` slot: an array of id-or-literal, the QRL sentinel
string, a record of id-or-literal fields, or a primitive kept as is. -/
inductive SObj where
  | sarr (elems : List JVal)
  | sqrl (str : String)
  | srec (fields : List (String × JVal))
  | sprim (v : JVal)
deriving DecidableEq

/-- `serialize` (store.ts lines 274-276): `getObjId(value) ?? value` — the
id as a string when one exists, otherwise the value itself unchanged. -/
def serialize1 (env : Env) (oid : JVal → Option Nat) (v : JVal) : JVal × List Log :=
  match getObjId env oid v with
  | (some id, lg) => (.vstr id, lg)
  | (none, lg) => (v, lg)

/-- One entry of `convertedObjs` (store.ts lines 283-297): arrays map each
element through `serialize`, QRLs become the QRL-sentinel string, other
objects have their enumerable own entries serialized field by field (a DOM
node reaching this point has none), and primitives pass through. -/
def convertObj (env : Env) (oid : JVal → Option Nat) (obj : JVal) : SObj × List Log :=
  match obj with
  | .vobj r =>
    match env.heap r with
    | .arr elems =>
      let mapped := elems.map (serialize1 env oid)
      (.sarr (mapped.map Prod.fst), (mapped.map Prod.snd).flatten)
    | .qrl srl => (.sqrl (QRL_MARK ++ srl), [])
    | .plain fields =>
      let mapped := fields.map (fun kv =>
        ((kv.1, (serialize1 env oid kv.2).1), (serialize1 env oid kv.2).2))
      (.srec (mapped.map Prod.fst), (mapped.map Prod.snd).flatten)
  | .vnode _ => (.srec [], [])
  | .vdoc => (.srec [], [])
  | prim => (.sprim prim, [])

def convertedObjs (env : Env) (oid : JVal → Option Nat) (objs : List JVal) :
    List SObj × List Log :=
  let mapped := objs.map (convertObj env oid)
  (mapped.map Prod.fst, (mapped.map Prod.snd).flatten)

/-! ### Per-element metadata (store.ts lines 120-128 and 301-381) -/

/-- `SnapshotMetaValue`: the optional `r`/`w`/`s`/`h`/`c` fields. -/
structure SnapshotMetaValue where
  r : Option String := none
  w : Option String := none
  s : Option String := none
  h : Option String := none
  c : Option String := none
deriving DecidableEq

/-- `Array.prototype.join(' ')` over `mustGetObjId` results: JS `join`
renders a `null` element as the empty string. -/
def jsJoin (l : List (Option String)) : String :=
  String.intercalate " " (l.map (fun o => o.getD ""))

/-- The component state of one element carrying a context (`getContext`
record, props module): its reference list `refMap.array`, `props`,
`renderQrl`, `seq`, `watches` and named `contexts`, plus whether the
collector captured the element (`collector.elements.includes(node)`). -/
structure ElemState where
  nodeRef : Nat
  captured : Bool
  refMap : List JVal
  props : Option JVal
  renderQrl : Option JVal
  seq : List JVal
  watches : List JVal
  contexts : Option (List (String × JVal))
deriving DecidableEq

/-- The metadata record written for one element (store.ts lines 303-363):
`r` from the reference list, `h` from `[props]` plus `renderQrl` when
present, `s` first from `watches` and then overwritten from `seq`, `c`
from the named contexts; each field only when its joined value is a
non-empty string (the `if (value)` truthiness checks).  `w` is never
assigned.  A `mustGetObjId` miss renders as the empty string inside `join`
and as the string `"null"` inside the template literal of `c`. -/
def writeMetaR (env : Env) (oid : JVal → Option Nat) (e : ElemState) : Option String :=
  if 0 < e.refMap.length then
    let value := jsJoin (e.refMap.map (getObjId1 env oid))
    if value ≠ "" then some value else none
  else none

def writeMetaH (env : Env) (oid : JVal → Option Nat) (e : ElemState) : Option String :=
  if e.captured && e.props.isSome then
    let value := jsJoin ((e.props.toList ++ e.renderQrl.toList).map (getObjId1 env oid))
    if value ≠ "" then some value else none
  else none

/-- The value the watches branch would leave in `s` (store.ts lines
337-343). -/
def writeMetaSWatch (env : Env) (oid : JVal → Option Nat) (e : ElemState) : Option String :=
  if e.captured && decide (0 < e.watches.length) then
    let value := jsJoin (e.watches.map (getObjId1 env oid))
    if value ≠ "" then some value else none
  else none

/-- The value the seq branch assigns to `s` (store.ts lines 345-351),
overwriting the watches value when it fires. -/
def writeMetaSSeq (env : Env) (oid : JVal → Option Nat) (e : ElemState) : Option String :=
  if e.captured && decide (0 < e.seq.length) then
    let value := jsJoin (e.seq.map (getObjId1 env oid))
    if value ≠ "" then some value else none
  else none

def writeMetaS (env : Env) (oid : JVal → Option Nat) (e : ElemState) : Option String :=
  match writeMetaSSeq env oid e with
  | some v => some v
  | none => writeMetaSWatch env oid e

def writeMetaC (env : Env) (oid : JVal → Option Nat) (e : ElemState) : Option String :=
  match e.contexts with
  | some ctxs =>
    let value := String.intercalate " "
      (ctxs.map (fun kv => kv.1 ++ "=" ++ ((getObjId1 env oid kv.2).getD "null")))
    if value ≠ "" then some value else none
  | none => none

/-- The metadata record written for one element (store.ts lines 303-363).
The source mutates one `metaValue` record branch by branch; each branch
assigns a different field (only `s` is assigned twice: first from
`watches`, then overwritten from `seq` when that branch fires with a
non-empty value), so the sequential mutation is the same record as this
field-by-field computation.  `w` is never assigned.  Each field is only
set when its joined value is a non-empty string (the `if (value)`
truthiness checks); a `mustGetObjId` miss renders as the empty string
inside `join` and as the string `"null"` inside the template literal of
`c`. -/
def writeMeta (env : Env) (oid : JVal → Option Nat) (e : ElemState) : SnapshotMetaValue :=
  { r := writeMetaR env oid e
    w := none
    s := writeMetaS env oid e
    h := writeMetaH env oid e
    c := writeMetaC env oid e }

/-- The `add` flag of the write-back loop: it is set exactly when some
metadata field was assigned. -/
def metaHasField (mv : SnapshotMetaValue) : Bool :=
  mv.r.isSome || mv.w.isSome || mv.s.isSome || mv.h.isSome || mv.c.isSome

/-- The `meta` record keyed by element id (store.ts lines 365-369); the
element id read through the non-null assertion renders JS `null` as the
property key `"null"`. -/
def buildMeta (env : Env) (oid : JVal → Option Nat) (els : List ElemState) :
    List (String × SnapshotMetaValue) :=
  els.filterMap (fun e =>
    let mv := writeMeta env oid e
    if metaHasField mv then some ((getElementID env e.nodeRef).getD "null", mv) else none)

/-! ### The snapshot writer (store.ts lines 157-415) -/

/-- Input of one `snapshotState` run after the collection phase:
`collected` is `Array.from(collector.objSet)` (normalized, duplicate-free
in actual runs) and `elements` the document-order list of elements that
carry a context, with their state. -/
structure SnapshotInput where
  collected : List JVal
  elements : List ElemState

/-- The `SnapshotState` triple `{ctx, objs, subs}` of the source, with
`objs` in converted form and `subs` the filtered entry list. -/
structure SnapshotStateM where
  ctx : List (String × SnapshotMetaValue)
  objs : List SObj
  subs : List (Option (List (String × SubVal)))
deriving DecidableEq

/-- `snapshotState` after collection: sort subscribed-first, assign ids by
index, build `subs`, convert `objs`, and write per-element metadata.  The
second component gathers the writer's `logError`/`logWarn` output from the
`subs` and conversion stages. -/
def snapshotState (env : Env) (inp : SnapshotInput) : SnapshotStateM × List Log :=
  let objs := sortedObjs env inp.collected
  let oid := objToId objs
  let (subs, lg1) := buildSubs env oid objs
  let (conv, lg2) := convertedObjs env oid objs
  let meta := buildMeta env oid inp.elements
  ({ ctx := meta, objs := conv, subs := subs }, lg1 ++ lg2)

/-! ### Resume-side values and effects -/

/-- A value handled during resume: the shapes JSON parsing produces
(`rnull`, numbers, booleans, strings, records, arrays) plus the live values
revival substitutes (`rundef` for the undefined sentinel, `rdoc` for the
document, `rqrl` for a parsed QRL carrying its payload, `relem` for a DOM
element resolved from the id attribute lookup). -/
inductive RVal where
  | rundef
  | rnull
  | rbool (b : Bool)
  | rnum (n : Int)
  | rstr (s : String)
  | robj (fields : List (String × RVal))
  | rarr (elems : List RVal)
  | relem (ref : Nat)
  | rdoc
  | rqrl (s : String)

/-- Observable actions of `resumeContainer`, in program order: log output,
removal of the snapshot script, assertion failures of the `assert`
collaborator, the JS `TypeError` thrown when `getObjectImpl` receives
`undefined` for an id, the final container-attribute write and the
`qresume` custom event. -/
inductive REffect where
  | logWarn (msg : String)
  | logDebug (msg : String)
  | removeScript
  | assertFail
  | typeError
  | setContainerAttrResumed
  | dispatchQResume
deriving DecidableEq

/-- JS truthiness on resume-side values (`if (!el)`). -/
def isFalsyR : RVal → Bool
  | .rundef => true
  | .rnull => true
  | .rbool false => true
  | .rnum 0 => true
  | .rstr "" => true
  | _ => false

/-- `entry[1] === null ? null : new Set(entry[1])` (store.ts line 478): a
`null` subscription value stays `null`, an array becomes the set of its
strings.  Other JSON shapes cannot appear in a well-formed snapshot. -/
def subSetOf : RVal → Option (List String)
  | .rnull => none
  | .rarr l => some (l.map (fun v => match v with | .rstr s => s | _ => ""))
  | _ => some []

/-- The `Object.entries(sub).forEach` body of `reviveValues` (store.ts
lines 468-480): resolve each subscriber id; a falsy result logs a warning
and skips that single entry, a truthy one is added with its converted
property set. -/
def convertSub (getObject : String → Option RVal) :
    List (String × RVal) → List (RVal × Option (List String)) × List REffect
  | [] => ([], [])
  | (k, v) :: rest =>
    match getObject k with
    | some el =>
      if isFalsyR el then
        ((convertSub getObject rest).1,
         .logWarn "QWIK can not revive subscriptions because of missing element ID" ::
           (convertSub getObject rest).2)
      else ((el, subSetOf v) :: (convertSub getObject rest).1, (convertSub getObject rest).2)
    | none =>
      ((convertSub getObject rest).1,
       .logWarn "QWIK can not revive subscriptions because of missing element ID" ::
         (convertSub getObject rest).2)

/-- Sentinel replacement for a string-valued `objs` slot (store.ts lines
456-463): the undefined sentinel becomes `undefined`, the document sentinel
the document, a QRL-sentinel string a parsed QRL over its payload
(`parseQRL` is a collaborator; its descriptor is kept opaque), anything
else is left as the string. -/
def reviveString (s : String) : RVal :=
  if s = UNDEF_MARK then .rundef
  else if s = DOCUMENT_MARK then .rdoc
  else if QRL_MARK.data.isPrefixOf s.data then .rqrl (s.drop 1)
  else .rstr s

/-- Per-slot result value of the `reviveValues` loop: a string slot gets
sentinel replacement, every other slot keeps its value. -/
def slotVal : RVal → RVal
  | .rstr s => reviveString s
  | v => v

/-- Per-slot proxy registration of the `reviveValues` loop: a non-string
slot whose parallel `subs` entry is truthy registers `(value, converted
map)` through `_restoreQObject` (a `q-object` collaborator — the
registration is returned instead of performed).  A truthy non-record entry
has no `Object.entries`, registering an empty map; a falsy or missing entry
registers nothing. -/
def slotRegs (getObject : String → Option RVal) (subs : List RVal) (i : Nat) :
    RVal → List (RVal × List (RVal × Option (List String)))
  | .rstr _ => []
  | v =>
    match subs[i]? with
    | some sub =>
      if isFalsyR sub then []
      else
        match sub with
        | .robj fields => [(v, (convertSub getObject fields).1)]
        | _ => [(v, [])]
    | none => []

/-- Per-slot warning output of the `reviveValues` loop. -/
def slotLogs (getObject : String → Option RVal) (subs : List RVal) (i : Nat) :
    RVal → List REffect
  | .rstr _ => []
  | _ =>
    match subs[i]? with
    | some sub =>
      if isFalsyR sub then []
      else
        match sub with
        | .robj fields => (convertSub getObject fields).2
        | _ => []
    | none => []

/-- The loop of `reviveValues` from slot index `i` on, assembled from the
per-slot pieces. -/
def reviveValuesAux (getObject : String → Option RVal) (subs : List RVal) :
    Nat → List RVal →
      List RVal × List (RVal × List (RVal × Option (List String))) × List REffect
  | _, [] => ([], [], [])
  | i, v :: rest =>
    (slotVal v :: (reviveValuesAux getObject subs (i + 1) rest).1,
     slotRegs getObject subs i v ++ (reviveValuesAux getObject subs (i + 1) rest).2.1,
     slotLogs getObject subs i v ++ (reviveValuesAux getObject subs (i + 1) rest).2.2)

/-- `reviveValues` (store.ts lines 447-485). -/
def reviveValues (objs subs : List RVal) (getObject : String → Option RVal) :
    List RVal × List (RVal × List (RVal × Option (List String))) × List REffect :=
  reviveValuesAux getObject subs 0 objs

/-- `elements.get(id)` on the lookup map built from the nodes carrying an
id attribute.  The `assertEqual(elements.has(id), true)` guarding it is in
the `assert` collaborator module; modelled from the spec, which classifies
a missing subscriber element as a logged, locally recovered condition, so
the read returns JS `undefined` rather than throwing. -/
def assocLookup : List (String × RVal) → String → Option RVal
  | [], _ => none
  | (k, v) :: rest, id => if k = id then some v else assocLookup rest id

def jsStartsWith (pre s : String) : Bool := pre.data.isPrefixOf s.data

def jsEndsWith (suf s : String) : Bool := suf.data.isSuffixOf s.data

/-- `getObjectImpl` (store.ts lines 519-537): element-prefixed ids resolve
through the element lookup; any other id is parsed as base-36 into an index
of `objs`, and a `"!"` suffix routes the raw value through the proxy
registry (`proxyMap.get(obj) ?? readWriteProxy(obj, proxyMap)`, a
collaborator pair abstracted as the idempotent `wrap`). -/
def getObjectImpl (elements : List (String × RVal)) (objs : List RVal)
    (wrap : RVal → RVal) (id : String) : Option RVal :=
  if jsStartsWith ELEMENT_ID_MARK id then assocLookup elements id
  else
    let obj := objs[strToInt id]?
    if jsEndsWith "!" id then obj.map wrap else obj

/-- `String.prototype.split` with a one-character separator, the only form
the source uses (`' '` and `'='`): JS `"".split(sep)` is `[""]`, and a
separator occurrence always contributes a boundary.  Written structurally so
concrete runs reduce definitionally. -/
def splitSep (sep : Char) : List Char → List (List Char)
  | [] => [[]]
  | c :: rest =>
    if c = sep then [] :: splitSep sep rest
    else
      match splitSep sep rest with
      | [] => [[c]]
      | g :: gs => (c :: g) :: gs

def jsSplit (sep : Char) (s : String) : List String := (splitSep sep s.data).map String.mk

/-- The component-state record rebuilt for one element of `meta.ctx`
(store.ts lines 75-113): pushed reference list, `seq`, `watches`, named
contexts and host state.  `Option RVal` entries keep the JS `undefined`
produced by an unresolvable id. -/
structure CtxR where
  refMap : List (Option RVal)
  seq : Option (List (Option RVal))
  watches : Option (List (Option RVal))
  contexts : List (String × Option RVal)
  props : Option (Option RVal)
  renderQrl : Option (Option RVal)

/-- Metadata attachment for one element (store.ts lines 80-112).  The `h`
field is destructured as `[props, renderQrl]`: both parts pass through
`assertDefined`, and when the second id is missing the subsequent
`getObject(undefined)` call throws a `TypeError` inside `getObjectImpl`
(`id.startsWith` on `undefined`), recorded as an effect. -/
def applyMeta (getObject : String → Option RVal) (m : SnapshotMetaValue) :
    CtxR × List REffect :=
  let refMap := match m.r with
    | some rs => (jsSplit ' ' rs).map getObject
    | none => []
  let seq := m.s.map (fun str => (jsSplit ' ' str).map getObject)
  let watches := m.w.map (fun str => (jsSplit ' ' str).map getObject)
  let contexts := match m.c with
    | some cs => (jsSplit ' ' cs).map (fun part =>
        let kv := jsSplit '=' part
        ((kv[0]?).getD "", (kv[1]?).bind getObject))
    | none => []
  match m.h with
  | some h =>
    let parts := jsSplit ' ' h
    let propsId := parts[0]?
    let qrlId := parts[1]?
    let effs :=
      (if propsId.isNone then [REffect.assertFail] else []) ++
      (if qrlId.isNone then [REffect.assertFail, REffect.typeError] else [])
    ({ refMap := refMap, seq := seq, watches := watches, contexts := contexts,
       props := some (propsId.bind getObject),
       renderQrl := some (qrlId.bind getObject) }, effs)
  | none =>
    ({ refMap := refMap, seq := seq, watches := watches, contexts := contexts,
       props := none, renderQrl := none }, [])

/-- The parsed `qwik/json` payload, shape of `SnapshotState`. -/
structure SnapshotParsed where
  ctx : List (String × SnapshotMetaValue)
  objs : List RVal
  subs : List RVal

/-- Input of `resumeContainer`: the container marker attribute, the
embedded script's text when one exists, `JSON.parse` as a collaborator
function, the id-attribute element lookup, and the resume-side proxy
wrapper. -/
structure ResumeInput where
  containerMarked : Bool
  script : Option String
  parse : String → SnapshotParsed
  elements : List (String × RVal)
  wrap : RVal → RVal

/-- Result of a `resumeContainer` run: whether the container was marked
resumed, the revived `objs`, the proxy registrations of `reviveValues`, the
rebuilt per-element state, and the ordered effect trace. -/
structure ResumeResult where
  resumed : Bool
  objs : List RVal
  restored : List (RVal × List (RVal × Option (List String)))
  ctxs : List (String × CtxR)
  effects : List REffect

/-- `resumeContainer` (store.ts lines 38-118).  The two precondition
guards return before any mutation with only a `logWarn`; otherwise the
script is removed, the snapshot parsed from the unescaped text, values
revived, per-element metadata attached (each element id resolving through
`getObject` behind `assertDefined`), and finally the container attribute is
set to `resumed` and the `qresume` event dispatched.  The in-place nested
string-reference resolution pass (`reviveNestedObjects`) mutates slot
contents without changing slot identity and no claim depends on it, so it
is not modelled. -/
def resumeContainer (inp : ResumeInput) : ResumeResult :=
  if !inp.containerMarked then
    { resumed := false, objs := [], restored := [], ctxs := [],
      effects := [.logWarn "Skipping hydration because parent element is not q:container"] }
  else
    match inp.script with
    | none =>
      { resumed := false, objs := [], restored := [], ctxs := [],
        effects := [.logWarn "Skipping hydration qwik/json metadata was not found."] }
    | some text =>
      let meta := inp.parse (unescapeText text)
      let getObject0 := getObjectImpl inp.elements meta.objs inp.wrap
      let (objs1, restored, lgs) := reviveValues meta.objs meta.subs getObject0
      let getObject1 := getObjectImpl inp.elements objs1 inp.wrap
      let ctxPairs := meta.ctx.map (fun km =>
        let el := getObject1 km.1
        let (ctx, effs) := applyMeta getObject1 km.2
        (km.1, ctx, (if el.isNone then [REffect.assertFail] else []) ++ effs))
      { resumed := true,
        objs := objs1,
        restored := restored,
        ctxs := ctxPairs.map (fun x => (x.1, x.2.1)),
        effects := [.removeScript] ++ lgs ++ (ctxPairs.map (fun x => x.2.2)).flatten ++
          [.setContainerAttrResumed, .logDebug "Container resumed", .dispatchQResume] }



/-! ### Concrete example states used by witnesses and counterexamples -/

/-- A run with one subscribed plain object (`vobj 0`, proxied at reference
10, one whole-value subscriber) and one unsubscribed primitive. -/
def envPart : Env :=
  { heap := fun _ => .plain []
    proxyTarget := fun _ => none
    proxyOf := fun v => if v = .vobj 0 then some 10 else none
    subsOf := fun p => if p = 10 then [(.vnull, none)] else []
    nodeType := fun _ => 1
    nodeConnected := fun _ => true
    elemIdAlloc := fun r => r
    shouldSerialize := fun _ => true }

/-- A run whose only collected value is a plain object with one field
holding a text node (`vnode 7`, `nodeType` 3). -/
def envNode : Env :=
  { heap := fun r => if r = 0 then .plain [("n", .vnode 7)] else .plain []
    proxyTarget := fun _ => none
    proxyOf := fun _ => none
    subsOf := fun _ => []
    nodeType := fun r => if r = 7 then 3 else 1
    nodeConnected := fun _ => true
    elemIdAlloc := fun r => r
    shouldSerialize := fun _ => true }

/-- A run collecting one props object (`vobj 0`) for an element (node
reference 1) that is captured and has no render closure. -/
def envHost : Env :=
  { heap := fun _ => .plain []
    proxyTarget := fun _ => none
    proxyOf := fun _ => none
    subsOf := fun _ => []
    nodeType := fun _ => 1
    nodeConnected := fun _ => true
    elemIdAlloc := fun r => r
    shouldSerialize := fun _ => true }

/-- The captured element state of the `envHost` run: props without a
render closure. -/
def elemHost : ElemState :=
  { nodeRef := 1, captured := true, refMap := [], props := some (.vobj 0),
    renderQrl := none, seq := [], watches := [], contexts := none }

/-- A captured element with one watch and one sequence entry, over two
collected primitives. -/
def elemSeqWatch : ElemState :=
  { nodeRef := 1, captured := true, refMap := [], props := none,
    renderQrl := none, seq := [.vnull], watches := [.vstr "w"], contexts := none }

/-- A proxied object whose only subscriber is a disconnected element
(`vnode 5`), so its id is `null` at write time. -/
def envDangling : Env :=
  { heap := fun _ => .plain []
    proxyTarget := fun _ => none
    proxyOf := fun v => if v = .vobj 0 then some 9 else none
    subsOf := fun p => if p = 9 then [(.vnode 5, none)] else []
    nodeType := fun _ => 1
    nodeConnected := fun r => !(r = 5)
    elemIdAlloc := fun r => r
    shouldSerialize := fun _ => true }

/-- A resume attempt on an element that is not marked as a container. -/
def inpNotContainer : ResumeInput :=
  { containerMarked := false, script := none, parse := fun _ => ⟨[], [], []⟩,
    elements := [], wrap := fun v => v }

/-! ### Helper lemmas for the codec and the escaper -/

theorem val36_digit36 : ∀ d, d < 36 → val36 (digit36 d) = d := by decide

theorem isDigit36_digit36 : ∀ d, d < 36 → isDigit36 (digit36 d) = true := by decide

theorem toB36Aux_ne_nil (fuel n : Nat) (h : n < fuel) : toB36Aux fuel n ≠ [] := by
  cases fuel with
  | zero => omega
  | succ f =>
    simp only [toB36Aux]
    split
    · simp
    · simp

theorem toB36Aux_digits (fuel : Nat) : ∀ n, n < fuel →
    ∀ c ∈ toB36Aux fuel n, isDigit36 c = true := by
  induction fuel with
  | zero => intro n h; omega
  | succ f ih =>
    intro n h c hc
    simp only [toB36Aux] at hc
    split at hc
    · simp only [List.mem_singleton] at hc
      exact hc ▸ isDigit36_digit36 n (by omega)
    · have hd : n / 36 < n := Nat.div_lt_self (by omega) (by omega)
      rcases List.mem_append.mp hc with hc | hc
      · exact ih (n / 36) (by omega) c hc
      · simp only [List.mem_singleton] at hc
        exact hc ▸ isDigit36_digit36 (n % 36) (by omega)

theorem toB36Aux_fuel_irrel (fuel : Nat) : ∀ fuel' n, n < fuel → n < fuel' →
    toB36Aux fuel n = toB36Aux fuel' n := by
  induction fuel with
  | zero => intro fuel' n h; omega
  | succ f ih =>
    intro fuel' n h h'
    cases fuel' with
    | zero => omega
    | succ f' =>
      simp only [toB36Aux]
      split
      · rfl
      · have hd : n / 36 < n := Nat.div_lt_self (by omega) (by omega)
        rw [ih f' (n / 36) (by omega) (by omega)]

theorem parse36_toB36Aux (fuel : Nat) : ∀ n, n < fuel → ∀ a,
    (toB36Aux fuel n).foldl (fun a c => a * 36 + val36 c) a =
      a * 36 ^ (toB36Aux fuel n).length + n := by
  induction fuel with
  | zero => intro n h; omega
  | succ f ih =>
    intro n h a
    simp only [toB36Aux]
    split
    · simp [val36_digit36 n (by omega)]
    · have hd : n / 36 < n := Nat.div_lt_self (by omega) (by omega)
      rw [List.foldl_append]
      rw [ih (n / 36) (by omega) a]
      simp only [List.foldl_cons, List.foldl_nil, List.length_append,
        List.length_cons, List.length_nil]
      rw [val36_digit36 (n % 36) (by omega)]
      have hmod := Nat.div_add_mod n 36
      generalize (toB36Aux f (n / 36)).length = L
      calc (a * 36 ^ L + n / 36) * 36 + n % 36
          = a * (36 ^ L * 36) + (36 * (n / 36) + n % 36) := by ring
        _ = a * 36 ^ (L + 1) + n := by rw [hmod, Nat.pow_succ]

theorem takeWhile_all {p : Char → Bool} : ∀ l : List Char,
    (∀ c ∈ l, p c = true) → l.takeWhile p = l := by
  intro l
  induction l with
  | nil => intro _; rfl
  | cons c t iht =>
    intro hall
    rw [List.takeWhile_cons_of_pos (hall c (by simp))]
    rw [iht (fun d hd => hall d (by simp [hd]))]

theorem strToInt_intToStr (n : Nat) : strToInt (intToStr n) = n := by
  have hdig := toB36Aux_digits (n + 1) n (by omega)
  simp only [strToInt, intToStr, parse36]
  rw [takeWhile_all (toB36Aux (n + 1) n) hdig]
  have := parse36_toB36Aux (n + 1) n (by omega) 0
  simpa using this

theorem hasEscapedPat_tail {c : Char} {rest : List Char}
    (h : hasEscapedPat (c :: rest) = false) : hasEscapedPat rest = false := by
  simp only [hasEscapedPat, Bool.or_eq_false_iff] at h
  exact h.2

/-- Characters other than the escaper's own output heads transfer backwards:
a backslash-free pattern that prefixes `escList t` already prefixes `t`,
because every replacement `escList` emits starts with a backslash. -/
theorem escList_pre (p t : List Char) (hp : ∀ d ∈ p, d ≠ '\\')
    (h : p.isPrefixOf (escList t) = true) : p.isPrefixOf t = true := by
  induction t using escList.induct generalizing p with
  | case1 rest ih =>
    simp only [escList] at h
    cases p with
    | nil => simp [List.isPrefixOf]
    | cons q p' =>
      simp only [List.isPrefixOf, Bool.and_eq_true, beq_iff_eq] at h
      exact absurd h.1 (hp q (by simp))
  | case2 rest ih =>
    simp only [escList] at h
    cases p with
    | nil => simp [List.isPrefixOf]
    | cons q p' =>
      simp only [List.isPrefixOf, Bool.and_eq_true, beq_iff_eq] at h
      exact absurd h.1 (hp q (by simp))
  | case3 c rest hno1 hno2 ih =>
    rw [escList.eq_3 c rest hno1 hno2] at h
    cases p with
    | nil => simp [List.isPrefixOf]
    | cons q p' =>
      simp only [List.isPrefixOf, Bool.and_eq_true, beq_iff_eq] at h ⊢
      exact ⟨h.1, ih p' (fun d hd => hp d (by simp [hd])) h.2⟩
  | case4 =>
    simp only [escList] at h
    cases p with
    | nil => simp [List.isPrefixOf]
    | cons q p' => simp [List.isPrefixOf] at h

theorem unesc_escList (t : List Char) (hb : hasEscapedPat t = false) :
    unescList (escList t) = t := by
  induction t using escList.induct with
  | case1 rest ih =>
    have hrest : hasEscapedPat rest = false := by
      iterate 8 replace hb := hasEscapedPat_tail hb
      exact hb
    simp only [escList]
    rw [unescList]
    rw [dif_pos (by simp [List.isPrefixOf])]
    simp only [List.drop_succ_cons, List.drop_zero]
    rw [ih hrest]
  | case2 rest ih =>
    have hrest : hasEscapedPat rest = false := by
      iterate 7 replace hb := hasEscapedPat_tail hb
      exact hb
    simp only [escList]
    rw [unescList]
    rw [dif_neg (by simp [List.isPrefixOf]), dif_pos (by simp [List.isPrefixOf])]
    simp only [List.drop_succ_cons, List.drop_zero]
    rw [ih hrest]
  | case3 c rest hno1 hno2 ih =>
    rw [escList.eq_3 c rest hno1 hno2]
    have hA : ¬ (['\\', 'x', '3', 'C', '/', 's', 'c', 'r', 'i', 'p', 't']).isPrefixOf
        (c :: escList rest) = true := by
      intro hpre
      simp only [List.isPrefixOf, Bool.and_eq_true, beq_iff_eq] at hpre
      have htrans := escList_pre ['x', '3', 'C', '/', 's', 'c', 'r', 'i', 'p', 't'] rest
        (by decide) hpre.2
      have hbad : hasEscapedPat (c :: rest) = true := by
        simp only [hasEscapedPat, Bool.or_eq_true]
        refine Or.inl (Or.inr ?_)
        simp only [List.isPrefixOf, Bool.and_eq_true, beq_iff_eq]
        exact ⟨hpre.1, htrans⟩
      rw [hb] at hbad; exact Bool.false_ne_true hbad
    have hB : ¬ (['\\', 'x', '3', 'C', 's', 'c', 'r', 'i', 'p', 't']).isPrefixOf
        (c :: escList rest) = true := by
      intro hpre
      simp only [List.isPrefixOf, Bool.and_eq_true, beq_iff_eq] at hpre
      have htrans := escList_pre ['x', '3', 'C', 's', 'c', 'r', 'i', 'p', 't'] rest
        (by decide) hpre.2
      have hbad : hasEscapedPat (c :: rest) = true := by
        simp only [hasEscapedPat, Bool.or_eq_true]
        refine Or.inl (Or.inl ?_)
        simp only [List.isPrefixOf, Bool.and_eq_true, beq_iff_eq]
        exact ⟨hpre.1, htrans⟩
      rw [hb] at hbad; exact Bool.false_ne_true hbad
    rw [unescList]
    rw [dif_neg hA, dif_neg hB]
    show c :: unescList (escList rest) = c :: rest
    rw [ih (hasEscapedPat_tail hb)]
  | case4 =>
    rw [unescList]
    rw [dif_neg (by decide), dif_neg (by decide)]
    rfl

/-! ### Helper lemmas about the snapshot pipeline -/

theorem subsEntryFor_isSome (env : Env) (oid : JVal → Option Nat) (obj : JVal) :
    (subsEntryFor env oid obj).1.isSome = hasSubscriptions env obj := by
  simp only [subsEntryFor, hasSubscriptions]
  cases env.proxyOf obj with
  | none => rfl
  | some p =>
    by_cases h : 0 < (env.subsOf p).length
    · simp [h]
    · simp [h]

theorem snapshotState_objs_map (env : Env) (inp : SnapshotInput) :
    (snapshotState env inp).1.objs =
      (sortedObjs env inp.collected).map
        (fun v => (convertObj env (objToId (sortedObjs env inp.collected)) v).1) := by
  simp only [snapshotState, convertedObjs, List.map_map]
  rfl

theorem buildSubs_eq (env : Env) (oid : JVal → Option Nat) (l : List JVal) :
    (buildSubs env oid (l.filter (fun a => hasSubscriptions env a) ++
        l.filter (fun a => !hasSubscriptions env a))).1 =
      (l.filter (fun a => hasSubscriptions env a)).map
        (fun v => (subsEntryFor env oid v).1) := by
  simp only [buildSubs, List.map_map, List.map_append, List.filter_append]
  have hA : ((l.filter (fun a => hasSubscriptions env a)).map
      (Prod.fst ∘ subsEntryFor env oid)).filter Option.isSome =
      (l.filter (fun a => hasSubscriptions env a)).map (Prod.fst ∘ subsEntryFor env oid) := by
    apply List.filter_eq_self.mpr
    intro x hx
    rcases List.mem_map.mp hx with ⟨a, ha, rfl⟩
    have := List.of_mem_filter ha
    simpa [subsEntryFor_isSome] using this
  have hB : ((l.filter (fun a => !hasSubscriptions env a)).map
      (Prod.fst ∘ subsEntryFor env oid)).filter Option.isSome = [] := by
    rw [List.filter_eq_nil_iff]
    intro x hx
    rcases List.mem_map.mp hx with ⟨a, ha, rfl⟩
    have := List.of_mem_filter ha
    simp only [Bool.not_eq_true'] at this
    simp [Function.comp, subsEntryFor_isSome, this]
  rw [hA, hB, List.append_nil]
  rfl

theorem snapshotState_subs_map (env : Env) (inp : SnapshotInput) :
    (snapshotState env inp).1.subs =
      (inp.collected.filter (fun a => hasSubscriptions env a)).map
        (fun v => (subsEntryFor env (objToId (sortedObjs env inp.collected)) v).1) := by
  have h0 : (snapshotState env inp).1.subs =
      (buildSubs env (objToId (sortedObjs env inp.collected))
        (sortedObjs env inp.collected)).1 := rfl
  rw [h0]
  exact buildSubs_eq env _ inp.collected

theorem slotRegs_robj (g : String → Option RVal) (subs : List RVal) (i : Nat) (v : RVal)
    (fields : List (String × RVal)) (hns : ∀ str, v ≠ RVal.rstr str)
    (hs : subs[i]? = some (RVal.robj fields)) :
    slotRegs g subs i v = [(v, (convertSub g fields).1)] := by
  cases v <;> first
    | exact absurd rfl (hns _)
    | simp [slotRegs, hs, isFalsyR]

theorem reviveValuesAux_mem (g : String → Option RVal) (subs : List RVal) :
    ∀ (l : List RVal) (i k : Nat) (v : RVal) (fields : List (String × RVal)),
      l[k]? = some v → (∀ str, v ≠ RVal.rstr str) →
      subs[i + k]? = some (RVal.robj fields) →
      (v, (convertSub g fields).1) ∈ (reviveValuesAux g subs i l).2.1 := by
  intro l
  induction l with
  | nil => intro i k v fields hk _ _; simp at hk
  | cons a rest ih =>
    intro i k v fields hk hns hsub
    cases k with
    | zero =>
      simp only [List.getElem?_cons_zero, Option.some.injEq] at hk
      subst hk
      have hsub' : subs[i]? = some (RVal.robj fields) := by simpa using hsub
      simp only [reviveValuesAux, slotRegs_robj g subs i a fields hns hsub']
      exact List.mem_cons_self _ _
    | succ k0 =>
      have hk' : rest[k0]? = some v := by simpa using hk
      have hsub' : subs[(i + 1) + k0]? = some (RVal.robj fields) := by
        have : (i + 1) + k0 = i + (k0 + 1) := by omega
        rw [this]; exact hsub
      have hmem := ih (i + 1) k0 v fields hk' hns hsub'
      simp only [reviveValuesAux]
      exact List.mem_append_right _ hmem

theorem reviveValuesAux_length (g : String → Option RVal) (subs : List RVal) :
    ∀ (l : List RVal) (i : Nat), (reviveValuesAux g subs i l).1.length = l.length := by
  intro l
  induction l with
  | nil => intro i; rfl
  | cons a rest ih =>
    intro i
    simp only [reviveValuesAux, List.length_cons, ih]

/-! ### Claim C2 -/

/-- C2, counterexample: the string `\x3Cscript` (no `<script` in it) is
left unchanged by `escapeText`, yet `unescapeText` rewrites it to
`<script`, so the claimed round-trip identity fails on it. -/
theorem c2_counterexample :
    unescapeText (escapeText "\\x3Cscript") ≠ "\\x3Cscript" ∧
    unescapeText (escapeText "\\x3Cscript") = "<script" := by
  have hesc : escapeText "\\x3Cscript" = "\\x3Cscript" := rfl
  have h1 : unescList ("\\x3Cscript").data = ("<script").data := by
    rw [unescList]
    rw [dif_neg (by decide), dif_pos (by decide)]
    rw [show (("\\x3Cscript").data.drop 10) = [] from rfl]
    rw [unescList]
    rw [dif_neg (by decide)]
    rw [dif_neg (by decide)]
  have h2 : unescapeText (escapeText "\\x3Cscript") = "<script" := by
    rw [hesc]
    show String.mk (unescList ("\\x3Cscript").data) = "<script"
    rw [h1]
  refine ⟨?_, h2⟩
  rw [h2]
  decide

/-- C2 (amended): `unescapeText (escapeText s) = s` for every string `s`
that does not already contain `\x3Cscript` or `\x3C/script` as a substring
(`hasEscapedPat`).  In particular it holds for all strings containing
`<script` / `</script` occurrences in any case and spacing; but on strings
containing the escaper's own output patterns the round trip rewrites them,
as `c2_counterexample` shows, so the universal claim is false. -/
theorem c2_escape_roundtrip (s : String) (hb : hasEscapedPat s.data = false) :
    unescapeText (escapeText s) = s := by
  show String.mk (unescList (escList s.data)) = s
  rw [unesc_escList s.data hb]

/-- Witness for C2 at a string full of script-tag occurrences in mixed
case and spacing. -/
theorem c2_escape_roundtrip_witness :
    hasEscapedPat ("a<script>b</script>c<SCRIPT>< script</ script" : String).data = false ∧
    unescapeText (escapeText "a<script>b</script>c<SCRIPT>< script</ script") =
      "a<script>b</script>c<SCRIPT>< script</ script" :=
  ⟨by decide, c2_escape_roundtrip "a<script>b</script>c<SCRIPT>< script</ script" (by decide)⟩


/-! ### Claim C4 -/

/-- C4 (confirmed): the `objs` sequence written by `snapshotState` follows
the sorted order (first conjunct: the written entries are the converted
sorted values, index by index), and in that order every entry with a
non-empty subscription map in the proxy registry sits strictly before every
entry without one. -/
theorem c4_subscribed_first (env : Env) (inp : SnapshotInput) :
    ((snapshotState env inp).1.objs =
      (sortedObjs env inp.collected).map
        (fun v => (convertObj env (objToId (sortedObjs env inp.collected)) v).1)) ∧
    (∀ (i j : Nat) (vi vj : JVal),
      (sortedObjs env inp.collected)[i]? = some vi →
      (sortedObjs env inp.collected)[j]? = some vj →
      hasSubscriptions env vi = true → hasSubscriptions env vj = false → i < j) := by
  constructor
  · simp only [snapshotState, convertedObjs, List.map_map]
    rfl
  · intro i j vi vj hi hj hvi hvj
    have hiA : i < (inp.collected.filter (fun a => hasSubscriptions env a)).length := by
      by_contra hge
      push_neg at hge
      rw [sortedObjs, List.getElem?_append_right hge] at hi
      have hmem := List.getElem?_mem hi
      have hneg := List.of_mem_filter hmem
      simp only [Bool.not_eq_true'] at hneg
      rw [hneg] at hvi
      cases hvi
    have hjB : (inp.collected.filter (fun a => hasSubscriptions env a)).length ≤ j := by
      by_contra hlt
      push_neg at hlt
      rw [sortedObjs, List.getElem?_append_left hlt] at hj
      have hmem := List.getElem?_mem hj
      have hpos := List.of_mem_filter hmem
      rw [hpos] at hvj
      cases hvj
    omega

/-- Witness for C4: in the `envPart` run the subscribed object lands at
index 0 and the unsubscribed primitive at index 1. -/
theorem c4_subscribed_first_witness :
    (sortedObjs envPart [JVal.vnull, JVal.vobj 0])[0]? = some (JVal.vobj 0) ∧
    (sortedObjs envPart [JVal.vnull, JVal.vobj 0])[1]? = some JVal.vnull ∧
    hasSubscriptions envPart (JVal.vobj 0) = true ∧
    hasSubscriptions envPart JVal.vnull = false ∧
    (0 : Nat) < 1 :=
  ⟨by decide, by decide, by decide, by decide,
    (c4_subscribed_first envPart ⟨[JVal.vnull, JVal.vobj 0], []⟩).2 0 1 (JVal.vobj 0) JVal.vnull
      (by decide) (by decide) (by decide) (by decide)⟩


/-! ### Claim C1 -/

/-- C1 (amended): `subs` is index-parallel to the subscribed prefix of the
written `objs`, not to all of it.  Writing `k` for `subs.length`: `k`
counts the values with a non-empty subscription map; for `i < k`, `subs[i]`
is exactly the serialized subscription map of the value converted at
`objs[i]`, that value is subscribed, and `objs[i]` is its conversion; for
`i ≥ k` the value at `objs[i]` has no subscriptions and `subs[i]` is absent
(JS `undefined`), not `null` — the `.filter((a) => !!a)` call removed the
`null` entries.  `reviveValues` treats a missing entry like a `null` one,
and pairs the value at slot `i` with `subs[i]` when registering proxies, so
`resumeContainer` still reads `subs[i]` as describing `objs[i]`. -/
theorem c1_subs_objs_parallel (env : Env) (inp : SnapshotInput) :
    ((snapshotState env inp).1.subs.length =
      (inp.collected.filter (fun a => hasSubscriptions env a)).length) ∧
    (∀ (i : Nat) (v : JVal), (sortedObjs env inp.collected)[i]? = some v →
      i < (snapshotState env inp).1.subs.length →
      (snapshotState env inp).1.subs[i]? =
        some ((subsEntryFor env (objToId (sortedObjs env inp.collected)) v).1) ∧
      hasSubscriptions env v = true ∧
      (snapshotState env inp).1.objs[i]? =
        some ((convertObj env (objToId (sortedObjs env inp.collected)) v).1)) ∧
    (∀ (i : Nat) (v : JVal), (sortedObjs env inp.collected)[i]? = some v →
      (snapshotState env inp).1.subs.length ≤ i →
      hasSubscriptions env v = false ∧ (snapshotState env inp).1.subs[i]? = none) ∧
    (∀ (g : String → Option RVal) (objsR subsR : List RVal) (i : Nat) (v : RVal)
      (fields : List (String × RVal)),
      objsR[i]? = some v → (∀ str, v ≠ RVal.rstr str) →
      subsR[i]? = some (RVal.robj fields) →
      (v, (convertSub g fields).1) ∈ (reviveValues objsR subsR g).2.1) := by
  have hlen : (snapshotState env inp).1.subs.length =
      (inp.collected.filter (fun a => hasSubscriptions env a)).length := by
    rw [snapshotState_subs_map, List.length_map]
  refine ⟨hlen, ?_, ?_, ?_⟩
  · intro i v hi hilt
    rw [hlen] at hilt
    have hiA : (sortedObjs env inp.collected)[i]? =
        (inp.collected.filter (fun a => hasSubscriptions env a))[i]? := by
      rw [sortedObjs, List.getElem?_append_left hilt]
    rw [hiA] at hi
    have hmem := List.getElem?_mem hi
    have hsubbed := List.of_mem_filter hmem
    refine ⟨?_, hsubbed, ?_⟩
    · rw [snapshotState_subs_map, List.getElem?_map, hi]
      rfl
    · rw [snapshotState_objs_map, List.getElem?_map, sortedObjs,
        List.getElem?_append_left hilt, hi]
      rfl
  · intro i v hi hige
    rw [hlen] at hige
    have hiB : (sortedObjs env inp.collected)[i]? =
        (inp.collected.filter (fun a => !hasSubscriptions env a))[i -
          (inp.collected.filter (fun a => hasSubscriptions env a)).length]? := by
      rw [sortedObjs, List.getElem?_append_right hige]
    rw [hiB] at hi
    have hmem := List.getElem?_mem hi
    have hnot := List.of_mem_filter hmem
    simp only [Bool.not_eq_true'] at hnot
    refine ⟨hnot, ?_⟩
    rw [List.getElem?_eq_none]
    rw [hlen]
    exact hige
  · intro g objsR subsR i v fields hv hns hsub
    have := reviveValuesAux_mem g subsR objsR 0 i v fields hv hns (by simpa using hsub)
    simpa [reviveValues] using this

/-- C1, counterexample to the claim as stated: in the `envPart` run the
written `objs` has two entries but `subs` has one; at index 1 (the
unsubscribed value) `subs[1]` is absent (JS `undefined`), whereas the claim
requires a `null` entry there (`some .none` in the model). -/
theorem c1_counterexample :
    (snapshotState envPart ⟨[JVal.vnull, JVal.vobj 0], []⟩).1.objs.length = 2 ∧
    (sortedObjs envPart [JVal.vnull, JVal.vobj 0])[1]? = some JVal.vnull ∧
    hasSubscriptions envPart JVal.vnull = false ∧
    (snapshotState envPart ⟨[JVal.vnull, JVal.vobj 0], []⟩).1.subs.length = 1 ∧
    (snapshotState envPart ⟨[JVal.vnull, JVal.vobj 0], []⟩).1.subs[1]? = none := by
  decide

/-- Witness for C1 at the `envPart` run, subscribed index 0. -/
theorem c1_subs_objs_parallel_witness :
    (sortedObjs envPart [JVal.vnull, JVal.vobj 0])[0]? = some (JVal.vobj 0) ∧
    ((snapshotState envPart ⟨[JVal.vnull, JVal.vobj 0], []⟩).1.subs[0]? =
      some ((subsEntryFor envPart
        (objToId (sortedObjs envPart [JVal.vnull, JVal.vobj 0])) (JVal.vobj 0)).1) ∧
     hasSubscriptions envPart (JVal.vobj 0) = true ∧
     (snapshotState envPart ⟨[JVal.vnull, JVal.vobj 0], []⟩).1.objs[0]? =
      some ((convertObj envPart
        (objToId (sortedObjs envPart [JVal.vnull, JVal.vobj 0])) (JVal.vobj 0)).1)) :=
  ⟨by decide,
    (c1_subs_objs_parallel envPart ⟨[JVal.vnull, JVal.vobj 0], []⟩).2.1 0 (JVal.vobj 0)
      (by decide) (by decide)⟩


/-! ### Helper lemmas about the id codec strings -/

theorem parse36_intToStr (n : Nat) : parse36 (intToStr n).data = n := by
  have h := parse36_toB36Aux (n + 1) n (by omega) 0
  simpa [intToStr, parse36] using h

theorem intToStr_digits (n : Nat) : ∀ c ∈ (intToStr n).data, isDigit36 c = true := by
  intro c hc
  exact toB36Aux_digits (n + 1) n (by omega) c hc

theorem intToStr_data_ne_nil (n : Nat) : (intToStr n).data ≠ [] :=
  toB36Aux_ne_nil (n + 1) n (by omega)

theorem takeWhile_append_stop {p : Char → Bool} (l : List Char) (c : Char) (t : List Char)
    (hall : ∀ d ∈ l, p d = true) (hc : p c = false) :
    (l ++ c :: t).takeWhile p = l := by
  induction l with
  | nil =>
    rw [List.nil_append]
    exact List.takeWhile_cons_of_neg (by simp [hc])
  | cons d rest ih =>
    rw [List.cons_append, List.takeWhile_cons_of_pos (hall d (by simp))]
    rw [ih (fun d hd => hall d (by simp [hd]))]

theorem strToInt_intToStr_bang (n : Nat) : strToInt (intToStr n ++ "!") = n := by
  simp only [strToInt, String.data_append]
  rw [takeWhile_append_stop (intToStr n).data '!' [] (intToStr_digits n) (by decide)]
  exact parse36_intToStr n

theorem jsStartsWith_mark_intToStr (n : Nat) :
    jsStartsWith ELEMENT_ID_MARK (intToStr n) = false := by
  show (ELEMENT_ID_MARK.data).isPrefixOf (intToStr n).data = false
  cases h : (intToStr n).data with
  | nil => exact absurd h (intToStr_data_ne_nil n)
  | cons c t =>
    have hd : isDigit36 c = true := intToStr_digits n c (h ▸ List.mem_cons_self c t)
    have hne : ('#' : Char) ≠ c := by
      intro he; rw [← he] at hd; exact absurd hd (by decide)
    show (['#'] : List Char).isPrefixOf (c :: t) = false
    simp [List.isPrefixOf, hne]

theorem jsStartsWith_mark_intToStr_bang (n : Nat) :
    jsStartsWith ELEMENT_ID_MARK (intToStr n ++ "!") = false := by
  show (ELEMENT_ID_MARK.data).isPrefixOf (intToStr n ++ "!").data = false
  rw [String.data_append]
  cases h : (intToStr n).data with
  | nil => exact absurd h (intToStr_data_ne_nil n)
  | cons c t =>
    have hd : isDigit36 c = true := intToStr_digits n c (h ▸ List.mem_cons_self c t)
    have hne : ('#' : Char) ≠ c := by
      intro he; rw [← he] at hd; exact absurd hd (by decide)
    show (['#'] : List Char).isPrefixOf (c :: (t ++ ("!" : String).data)) = false
    simp [List.isPrefixOf, hne]

theorem jsEndsWith_bang_intToStr (n : Nat) : jsEndsWith "!" (intToStr n) = false := by
  show (("!" : String).data).isSuffixOf (intToStr n).data = false
  show (("!" : String).data.reverse).isPrefixOf (intToStr n).data.reverse = false
  cases h : (intToStr n).data.reverse with
  | nil => exact absurd (List.reverse_eq_nil_iff.mp h) (intToStr_data_ne_nil n)
  | cons c t =>
    have hmem : c ∈ (intToStr n).data := by
      rw [← List.mem_reverse, h]; exact List.mem_cons_self c t
    have hd : isDigit36 c = true := intToStr_digits n c hmem
    have hne : ('!' : Char) ≠ c := by
      intro he; rw [← he] at hd; exact absurd hd (by decide)
    show (['!'] : List Char).isPrefixOf (c :: t) = false
    simp [List.isPrefixOf, hne]

theorem jsEndsWith_bang_intToStr_bang (n : Nat) : jsEndsWith "!" (intToStr n ++ "!") = true := by
  show (("!" : String).data.reverse).isPrefixOf (intToStr n ++ "!").data.reverse = true
  rw [String.data_append]
  rw [show ("!" : String).data = ['!'] from rfl]
  rw [List.reverse_append]
  show (['!'] : List Char).isPrefixOf ('!' :: (intToStr n).data.reverse) = true
  simp [List.isPrefixOf]

theorem objToId_getElem : ∀ (l : List JVal) (v : JVal) (i : Nat),
    objToId l v = some i → l[i]? = some v := by
  intro l
  induction l with
  | nil => intro v i h; simp [objToId] at h
  | cons a rest ih =>
    intro v i h
    simp only [objToId] at h
    cases hr : objToId rest v with
    | some j =>
      rw [hr] at h
      cases h
      simpa using ih v j hr
    | none =>
      rw [hr] at h
      by_cases hv : a = v
      · rw [if_pos hv] at h
        cases h
        simpa using hv
      · rw [if_neg hv] at h
        cases h

theorem objToId_mem : ∀ (l : List JVal) (v : JVal), v ∈ l → ∃ i, objToId l v = some i := by
  intro l
  induction l with
  | nil => intro v h; simp at h
  | cons a rest ih =>
    intro v h
    simp only [objToId]
    cases hr : objToId rest v with
    | some j => exact ⟨j + 1, rfl⟩
    | none =>
      rcases List.mem_cons.mp h with h | h
      · exact ⟨0, by rw [if_pos h.symm]⟩
      · rcases ih v h with ⟨j, hj⟩
        rw [hj] at hr
        cases hr

/-! ### Claim C3 -/

/-- C3 (confirmed): `objToId` maps each collected value to a single index
(same value, same id; two values with the same id are the same value), the
index points back at the value in `objs`; base-36 ids are injective; and on
resume `getObjectImpl` resolves the id `intToStr i` to exactly the slot at
index `i` — the single shared identity — and the `"!"`-suffixed id to the
proxy wrap of that same slot. -/
theorem c3_identity_ids (objs : List JVal) (objsR : List RVal)
    (elements : List (String × RVal)) (wrap : RVal → RVal) :
    (∀ (a b : JVal) (i : Nat), objToId objs a = some i → objToId objs b = some i → a = b) ∧
    (∀ a : JVal, a ∈ objs → ∃ i : Nat, objToId objs a = some i ∧ objs[i]? = some a) ∧
    (∀ (i j : Nat), intToStr i = intToStr j → i = j) ∧
    (∀ i : Nat, getObjectImpl elements objsR wrap (intToStr i) = objsR[i]?) ∧
    (∀ i : Nat, getObjectImpl elements objsR wrap (intToStr i ++ "!") = (objsR[i]?).map wrap) := by
  refine ⟨?_, ?_, ?_, ?_, ?_⟩
  · intro a b i ha hb
    have h1 := objToId_getElem objs a i ha
    have h2 := objToId_getElem objs b i hb
    rw [h1] at h2
    cases h2
    rfl
  · intro a ha
    rcases objToId_mem objs a ha with ⟨i, hi⟩
    exact ⟨i, hi, objToId_getElem objs a i hi⟩
  · intro i j h
    have := congrArg strToInt h
    rwa [strToInt_intToStr, strToInt_intToStr] at this
  · intro i
    simp [getObjectImpl, jsStartsWith_mark_intToStr, jsEndsWith_bang_intToStr,
      strToInt_intToStr]
  · intro i
    simp [getObjectImpl, jsStartsWith_mark_intToStr_bang, jsEndsWith_bang_intToStr_bang,
      strToInt_intToStr_bang]

/-- Witness for C3: the value `vstr "a"` gets id 1 and resolves back, and
id `"0"` resolves to the single slot 0 on resume. -/
theorem c3_identity_ids_witness :
    (JVal.vstr "a") ∈ [JVal.vnull, JVal.vstr "a"] ∧
    (∃ i : Nat, objToId [JVal.vnull, JVal.vstr "a"] (JVal.vstr "a") = some i ∧
      [JVal.vnull, JVal.vstr "a"][i]? = some (JVal.vstr "a")) ∧
    getObjectImpl [] [RVal.rnull] (fun v => v) (intToStr 0) = [RVal.rnull][0]? :=
  ⟨by decide,
   (c3_identity_ids [JVal.vnull, JVal.vstr "a"] [] [] (fun v => v)).2.1
     (JVal.vstr "a") (by decide),
   (c3_identity_ids [JVal.vnull, JVal.vstr "a"] [RVal.rnull] [] (fun v => v)).2.2.2.1 0⟩


/-! ### Claim C5 -/

/-- C5 (confirmed): on a container that is not marked, or whose snapshot
script is absent, `resumeContainer` emits exactly one warning and returns:
no script removal, no attribute write, no context state, no `qresume`
event. -/
theorem c5_precondition_abort (inp : ResumeInput) :
    (inp.containerMarked = false →
      resumeContainer inp =
        { resumed := false, objs := [], restored := [], ctxs := [],
          effects := [.logWarn "Skipping hydration because parent element is not q:container"] }) ∧
    (inp.containerMarked = true → inp.script = none →
      resumeContainer inp =
        { resumed := false, objs := [], restored := [], ctxs := [],
          effects := [.logWarn "Skipping hydration qwik/json metadata was not found."] }) ∧
    ((inp.containerMarked = false ∨ inp.script = none) →
      (resumeContainer inp).resumed = false ∧
      (resumeContainer inp).ctxs = [] ∧
      (resumeContainer inp).restored = [] ∧
      REffect.setContainerAttrResumed ∉ (resumeContainer inp).effects ∧
      REffect.dispatchQResume ∉ (resumeContainer inp).effects ∧
      REffect.removeScript ∉ (resumeContainer inp).effects ∧
      ∃ msg, (resumeContainer inp).effects = [REffect.logWarn msg]) := by
  refine ⟨?_, ?_, ?_⟩
  · intro h
    simp [resumeContainer, h]
  · intro h1 h2
    simp [resumeContainer, h1, h2]
  · intro h
    have hres : resumeContainer inp =
        { resumed := false, objs := [], restored := [], ctxs := [],
          effects := [.logWarn "Skipping hydration because parent element is not q:container"] } ∨
        resumeContainer inp =
        { resumed := false, objs := [], restored := [], ctxs := [],
          effects := [.logWarn "Skipping hydration qwik/json metadata was not found."] } := by
      rcases h with h | h
      · left; simp [resumeContainer, h]
      · by_cases hm : inp.containerMarked
        · right; simp [resumeContainer, hm, h]
        · left
          simp only [Bool.not_eq_true] at hm
          simp [resumeContainer, hm]
    rcases hres with hres | hres <;> rw [hres] <;>
      exact ⟨rfl, rfl, rfl, by simp, by simp, by simp, ⟨_, rfl⟩⟩

/-- Witness for C5: the unmarked-container input aborts with the warning
and an otherwise empty result. -/
theorem c5_precondition_abort_witness :
    resumeContainer inpNotContainer =
      { resumed := false, objs := [], restored := [], ctxs := [],
        effects := [.logWarn "Skipping hydration because parent element is not q:container"] } :=
  (c5_precondition_abort inpNotContainer).1 rfl

/-! ### Claim C6 -/

/-- C6, counterexample to the claim as stated: in the `envNode` run a text
node (`vnode 7`) sits in a field of the collected object; the error is
logged, but the owning slot of the serialized output keeps the literal node
value — it does not hold the `"undefined"` sentinel. -/
theorem c6_counterexample :
    (snapshotState envNode ⟨[JVal.vobj 0], []⟩).1.objs =
      [SObj.srec [("n", JVal.vnode 7)]] ∧
    Log.error "Can not serialize a HTML Node that is not an Element" ∈
      (snapshotState envNode ⟨[JVal.vobj 0], []⟩).2 ∧
    JVal.vnode 7 ≠ JVal.vstr UNDEF_MARK ∧
    (snapshotState envNode ⟨[JVal.vobj 0], []⟩).1.objs ≠
      [SObj.srec [("n", JVal.vstr UNDEF_MARK)]] := by
  decide

/-- C6 (amended): for a non-element DOM node with no id in the object
space, `getObjId` logs the error and returns `null`; `serialize` then falls
back to the literal node value — not the `"undefined"` sentinel — at the
owning slot, and conversion of the remaining fields continues (the record
keeps every field, serialized field by field). -/
theorem c6_nonelement_node (env : Env) (oid : JVal → Option Nat) (r ref : Nat)
    (fields : List (String × JVal))
    (hn : env.nodeType r ≠ 1)
    (ho : oid (normalizeObj env (.vnode r)) = none) :
    getObjId env oid (.vnode r) =
      (none, [.error "Can not serialize a HTML Node that is not an Element"]) ∧
    serialize1 env oid (.vnode r) =
      (.vnode r, [.error "Can not serialize a HTML Node that is not an Element"]) ∧
    (env.heap ref = .plain fields →
      (convertObj env oid (.vobj ref)).1 =
        .srec (fields.map (fun kv => (kv.1, (serialize1 env oid kv.2).1)))) := by
  have hb : (nodeTypeOf env (JVal.vnode r) == 1) = false := by
    simp only [nodeTypeOf]
    exact beq_eq_false_iff_ne.mpr hn
  have hg : getObjId env oid (.vnode r) =
      (none, [.error "Can not serialize a HTML Node that is not an Element"]) := by
    simp [getObjId, isObjectType, jsTarget, isNode, ho, hb]
  refine ⟨hg, ?_, ?_⟩
  · simp [serialize1, hg]
  · intro hh
    simp [convertObj, hh, List.map_map, Function.comp]

/-- Witness for C6 at the `envNode` text node. -/
theorem c6_nonelement_node_witness :
    envNode.nodeType 7 ≠ 1 ∧
    getObjId envNode (objToId [JVal.vobj 0]) (JVal.vnode 7) =
      (none, [Log.error "Can not serialize a HTML Node that is not an Element"]) :=
  ⟨by decide,
    (c6_nonelement_node envNode (objToId [JVal.vobj 0]) 7 0 [("n", JVal.vnode 7)]
      (by decide) (by decide)).1⟩

/-! ### Claim C8 -/

/-- C8, evaluation at the failing input: a captured element whose context
has `props` but no `renderQrl` gets an `h` field holding a single id
(`"0"`, one space-separated part), not two; `resumeContainer`, reading that
`h`, fails its `assertDefined(renderQrl)` and reaches
`getObject(undefined)`, which throws a `TypeError` in `getObjectImpl`. -/
theorem c8_h_single_id :
    (snapshotState envHost ⟨[JVal.vobj 0], [elemHost]⟩).1.ctx =
      [("#1", ({ h := some "0" } : SnapshotMetaValue))] ∧
    (jsSplit ' ' "0").length = 1 ∧
    REffect.assertFail ∈ (applyMeta (fun _ => none) ({ h := some "0" } : SnapshotMetaValue)).2 ∧
    REffect.typeError ∈ (applyMeta (fun _ => none) ({ h := some "0" } : SnapshotMetaValue)).2 := by
  decide


/-! ### Claim C9 -/

/-- C9 (confirmed): for a captured element with both watches and sequence
entries, the writer's `s` field ends up holding the sequence ids (the
watch-id assignment to `s` is overwritten by the later `seq` assignment);
the writer never assigns `w`; and on resume `ctx.watches` is only restored
from `w`, so a metadata record without `w` restores no watches. -/
theorem c9_seq_overwrites_watches (env : Env) (oid : JVal → Option Nat)
    (e : ElemState) (g : String → Option RVal)
    (hc : e.captured = true) (hw : 0 < e.watches.length) (hs : 0 < e.seq.length)
    (hjoin : jsJoin (e.seq.map (getObjId1 env oid)) ≠ "") :
    (writeMeta env oid e).s = some (jsJoin (e.seq.map (getObjId1 env oid))) ∧
    (∀ e' : ElemState, (writeMeta env oid e').w = none) ∧
    (∀ m : SnapshotMetaValue, m.w = none → (applyMeta g m).1.watches = none) := by
  refine ⟨?_, ?_, ?_⟩
  · have hseq : writeMetaSSeq env oid e = some (jsJoin (e.seq.map (getObjId1 env oid))) := by
      simp [writeMetaSSeq, hc, hs, hjoin]
    show writeMetaS env oid e = some (jsJoin (e.seq.map (getObjId1 env oid)))
    simp [writeMetaS, hseq]
  · intro e'
    rfl
  · intro m hm
    cases hh : m.h <;> simp [applyMeta, hm, hh]

/-- Witness for C9 at the `elemSeqWatch` element over two collected
primitives. -/
theorem c9_seq_overwrites_watches_witness :
    elemSeqWatch.captured = true ∧
    0 < elemSeqWatch.watches.length ∧
    0 < elemSeqWatch.seq.length ∧
    jsJoin (elemSeqWatch.seq.map
      (getObjId1 envHost (objToId [JVal.vnull, JVal.vstr "w"]))) ≠ "" ∧
    (writeMeta envHost (objToId [JVal.vnull, JVal.vstr "w"]) elemSeqWatch).s =
      some (jsJoin (elemSeqWatch.seq.map
        (getObjId1 envHost (objToId [JVal.vnull, JVal.vstr "w"])))) :=
  ⟨rfl, by decide, by decide, by decide,
    (c9_seq_overwrites_watches envHost (objToId [JVal.vnull, JVal.vstr "w"]) elemSeqWatch
      (fun _ => none) rfl (by decide) (by decide) (by decide)).1⟩

/-! ### Helper lemmas about serialized subscription objects -/

theorem lookupEntry_setEntry_self : ∀ (a : List (String × SubVal)) (k : String) (v : SubVal),
    lookupEntry (setEntry a k v) k = some v := by
  intro a
  induction a with
  | nil => intro k v; simp [setEntry, lookupEntry]
  | cons kv rest ih =>
    intro k v
    rcases kv with ⟨k0, v0⟩
    by_cases h : k0 = k
    · simp [setEntry, h, lookupEntry]
    · simp [setEntry, h, lookupEntry, ih]

theorem lookupEntry_setEntry_ne : ∀ (a : List (String × SubVal)) (k k' : String) (v' : SubVal),
    k' ≠ k → lookupEntry (setEntry a k' v') k = lookupEntry a k := by
  intro a
  induction a with
  | nil =>
    intro k k' v' h
    simp [setEntry, lookupEntry, h]
  | cons kv rest ih =>
    intro k k' v' h
    rcases kv with ⟨k0, v0⟩
    by_cases h0 : k0 = k'
    · subst h0
      simp [setEntry, lookupEntry, h]
    · simp only [setEntry, if_neg h0]
      by_cases hk : k0 = k
      · simp [lookupEntry, hk]
      · simp [lookupEntry, hk, ih k k' v' h]

theorem lookupEntry_foldl_setEntry :
    ∀ (l : List (String × SubVal)) (acc : List (String × SubVal)) (k : String) (v : SubVal),
      (∀ kv ∈ l, kv.1 = k → kv.2 = v) →
      ((k, v) ∈ l ∨ lookupEntry acc k = some v) →
      lookupEntry (l.foldl (fun a kv => setEntry a kv.1 kv.2) acc) k = some v := by
  intro l
  induction l with
  | nil =>
    intro acc k v hall hin
    rcases hin with h | h
    · simp at h
    · simpa using h
  | cons kv0 rest ih =>
    intro acc k v hall hin
    rcases kv0 with ⟨k0, v0⟩
    simp only [List.foldl_cons]
    apply ih
    · intro kv hkv hk
      exact hall kv (by simp [hkv]) hk
    · by_cases hk0 : k0 = k
      · right
        have hv0 : v0 = v := hall (k0, v0) (by simp) hk0
        rw [hk0, hv0]
        exact lookupEntry_setEntry_self acc k v
      · rcases hin with hin | hin
        · rcases List.mem_cons.mp hin with he | he
          · exfalso
            apply hk0
            cases he
            rfl
          · left; exact he
        · right
          rw [lookupEntry_setEntry_ne acc k k0 v0 hk0]
          exact hin

/-! ### Claim C10 -/

/-- C10 (confirmed): a subscriber whose `getObjId` is `null` is not
omitted: the serialized subscription object for the owning value carries a
property keyed by the string `"undefined"` whose value is JS `undefined`
(the `[undefined, undefined]` pair through `Object.fromEntries`).  The last
hypothesis rules out a different subscriber whose real base-36 id happens
to be the literal string `"undefined"`, which would collide with that
property key. -/
theorem c10_null_subscriber (env : Env) (oid : JVal → Option Nat) (obj : JVal)
    (p : Nat) (sub : JVal) (sset : Option (List String))
    (hp : env.proxyOf obj = some p)
    (hmem : (sub, sset) ∈ env.subsOf p)
    (hnull : getObjId1 env oid sub = none)
    (hother : ∀ x ∈ env.subsOf p, getObjId1 env oid x.1 ≠ some "undefined") :
    ∃ entry, (subsEntryFor env oid obj).1 = some entry ∧
      lookupEntry entry "undefined" = some SubVal.sundef := by
  have hlen : 0 < (env.subsOf p).length := List.length_pos_of_mem hmem
  have hfst : (subsEntryFor env oid obj).1 =
      some (fromEntries (((env.subsOf p).map (fun su =>
        match getObjId env oid su.1 with
        | (some id, lg) =>
          ((id, match su.2 with | some props => SubVal.sarr props | none => SubVal.snull), lg)
        | (none, lg) => (("undefined", SubVal.sundef), lg))).map Prod.fst)) := by
    simp [subsEntryFor, hp, hlen]
  refine ⟨_, hfst, ?_⟩
  apply lookupEntry_foldl_setEntry
  · intro kv hkv hk
    rcases List.mem_map.mp hkv with ⟨pr, hpr, rfl⟩
    rcases List.mem_map.mp hpr with ⟨su, hsu, rfl⟩
    rcases hg : getObjId env oid su.1 with ⟨gid, glg⟩
    cases gid with
    | none => simp [hg]
    | some id =>
      exfalso
      have hid : id = "undefined" := by
        rw [hg] at hk
        simpa using hk
      apply hother su hsu
      show (getObjId env oid su.1).1 = some "undefined"
      rw [hg, hid]
  · left
    have hmemmap : (("undefined", SubVal.sundef), (getObjId env oid sub).2) ∈
        (env.subsOf p).map (fun su =>
          match getObjId env oid su.1 with
          | (some id, lg) =>
            ((id, match su.2 with | some props => SubVal.sarr props | none => SubVal.snull), lg)
          | (none, lg) => (("undefined", SubVal.sundef), lg)) := by
      apply List.mem_map.mpr
      refine ⟨(sub, sset), hmem, ?_⟩
      rcases hg : getObjId env oid sub with ⟨gid, glg⟩
      have : gid = none := by
        simpa [getObjId1, hg] using hnull
      subst this
      simp [hg]
    exact List.mem_map.mpr
      ⟨(("undefined", SubVal.sundef), (getObjId env oid sub).2), hmemmap, rfl⟩

/-- Witness for C10: in the `envDangling` run the only subscriber is a
disconnected element, so the entry keyed `"undefined"` with value
`undefined` is present. -/
theorem c10_null_subscriber_witness :
    envDangling.proxyOf (JVal.vobj 0) = some 9 ∧
    ((JVal.vnode 5, (none : Option (List String))) ∈ envDangling.subsOf 9) ∧
    getObjId1 envDangling (fun _ => none) (JVal.vnode 5) = none ∧
    (∃ entry, (subsEntryFor envDangling (fun _ => none) (JVal.vobj 0)).1 = some entry ∧
      lookupEntry entry "undefined" = some SubVal.sundef) :=
  ⟨by decide, by decide, by decide,
    c10_null_subscriber envDangling (fun _ => none) (JVal.vobj 0) 9 (JVal.vnode 5) none
      (by decide) (by decide) (by decide) (by decide)⟩

/-! ### Claim C7 -/

/-- C7 (confirmed): while rebuilding a subscription map, a subscriber id
that does not resolve to a live element only logs a warning and drops that
single entry (the rebuilt map is the `filterMap` over the resolvable,
truthy entries), and the revival loop still processes every slot of `objs`
(no exception interrupts it). -/
theorem c7_dangling_subscriber (g : String → Option RVal) (fields : List (String × RVal))
    (k : String) (v : RVal) (objsR subsR : List RVal) :
    ((k, v) ∈ fields → g k = none →
      REffect.logWarn "QWIK can not revive subscriptions because of missing element ID" ∈
        (convertSub g fields).2) ∧
    ((convertSub g fields).1 = fields.filterMap (fun kv =>
      match g kv.1 with
      | some el => if isFalsyR el then none else some (el, subSetOf kv.2)
      | none => none)) ∧
    ((reviveValues objsR subsR g).1.length = objsR.length) := by
  refine ⟨?_, ?_, ?_⟩
  · induction fields with
    | nil => intro hmem _; simp at hmem
    | cons kv rest ih =>
      intro hmem hk
      rcases List.mem_cons.mp hmem with he | he
      · rcases kv with ⟨k1, v1⟩
        cases he
        simp [convertSub, hk]
      · rcases kv with ⟨k1, v1⟩
        rcases hg : g k1 with _ | el
        · simp only [convertSub, hg]
          exact List.mem_cons_of_mem _ (ih he hk)
        · by_cases hf : isFalsyR el = true
          · simp only [convertSub, hg, if_pos hf]
            exact List.mem_cons_of_mem _ (ih he hk)
          · simp only [convertSub, hg, if_neg hf]
            exact ih he hk
  · induction fields with
    | nil => rfl
    | cons kv rest ih =>
      rcases kv with ⟨k1, v1⟩
      rcases hg : g k1 with _ | el
      · simp [convertSub, hg, List.filterMap_cons, ih]
      · by_cases hf : isFalsyR el = true
        · simp [convertSub, hg, hf, List.filterMap_cons, ih]
        · simp [convertSub, hg, hf, List.filterMap_cons, ih]
  · exact reviveValuesAux_length g subsR objsR 0

/-- Witness for C7: a single dangling subscriber id logs the warning. -/
theorem c7_dangling_subscriber_witness :
    ((("#gone" : String), RVal.rnull) ∈ [(("#gone" : String), RVal.rnull)]) ∧
    REffect.logWarn "QWIK can not revive subscriptions because of missing element ID" ∈
      (convertSub (fun _ => none) [("#gone", RVal.rnull)]).2 :=
  ⟨List.mem_cons_self _ _,
    (c7_dangling_subscriber (fun _ => none) [("#gone", RVal.rnull)] "#gone" RVal.rnull [] []).1
      (List.mem_cons_self _ _) rfl⟩

end QwikStore
